import Mathlib

/-!
# Verification of the ironic emulator core

A shallow embedding (in Lean 4) of the parts of the `ironic` Wii Starlet
emulator that the specification's testable properties talk about, together
with proofs settling those properties.

Machine integers (`u32`, `u16`) are modelled as `Nat` with explicit
`% 2 ^ 32` wrapping where the Rust code wraps, and `Int` where the Rust
code computes in `i32`.  Fallible Rust functions returning
`Result<T, String>` / `anyhow::Result<T>` become `Except String T`;
Rust panics (`assert!`, `unimplemented!`) become `Option`.

Definitions are translated from the repository sources.  The crate that
declares the CPU register file, CPSR accessors, the PC helpers, the
exception mechanics and the MMU primitive types is not part of the
source tree under verification (only its callers are), so those
definitions are modelled from the specification and carry a doc comment
starting with `Modelled from the spec:`.
-/

namespace Ironic

/-! ## Machine-integer helpers -/

/-- Reinterpret the low 32 bits of a natural as a signed 32-bit integer
(Rust `as i32`). -/
def toI32 (x : Nat) : Int :=
  if x % 2 ^ 32 < 2 ^ 31 then ((x % 2 ^ 32 : Nat) : Int)
  else ((x % 2 ^ 32 : Nat) : Int) - 2 ^ 32

/-- Truncate a signed integer to its unsigned 32-bit representation
(Rust `as u32`; Lean's `Int.emod` by a positive modulus is non-negative). -/
def ofI32 (x : Int) : Nat := (x % 2 ^ 32).toNat

/-- Bitwise complement on `u32` (Rust `!val` for a 32-bit value). -/
def not32 (v : Nat) : Nat := 2 ^ 32 - 1 - v % 2 ^ 32

/-- `u32::count_ones` (population count of the low 32 bits). -/
def count_ones (x : Nat) : Nat := (List.range 32).countP (fun i => x.testBit i)

/-- `sign_extend` (src/back/src/interp/thumb/branch.rs): interpret the low
`bits` bits of `x` as a signed quantity.  The Rust tests bit `bits - 1` of
`x as i32` with an arithmetic shift, which for `x < 2 ^ 32` is
`Nat.testBit x (bits - 1)`; when the bit is set, `x as i32 | !0 << bits`
fills every bit from position `bits` upward with ones, i.e. yields
`x % 2 ^ bits - 2 ^ bits` in two's complement. -/
def sign_extend (x : Nat) (bits : Nat) : Int :=
  if x.testBit (bits - 1) then ((x % 2 ^ 32) % 2 ^ bits : Nat) - 2 ^ bits
  else toI32 x

/-! ## MMU primitive types

The MMU walk itself lives in src/core/src/cpu/mmu.rs; the primitive types it
consumes (`TLBReq`, `VirtAddr`, the descriptor enums and the permission
context) are declared in a module outside the verified source tree and are
modelled from the specification. -/

/-- Access kind of a TLB request (spec: `access kind ∈ {Read, Write, Debug}`). -/
inductive Access
  | Read
  | Write
  | Debug
deriving DecidableEq, Repr

/-- Modelled from the spec: "TLB request. { virtual address, access kind }". -/
structure TLBReq where
  vaddr : Nat
  kind : Access
deriving DecidableEq, Repr

/-- Modelled from the spec: virtual-address field `[31:20]` (L1 table index). -/
def VirtAddr.l1_idx (v : Nat) : Nat := (v >>> 20) &&& 0xfff

/-- Modelled from the spec: virtual-address field `[19:0]` (section offset). -/
def VirtAddr.section_idx (v : Nat) : Nat := v &&& 0xfffff

/-- Modelled from the spec: virtual-address field `[19:12]` (coarse L2 index). -/
def VirtAddr.l2_idx_coarse (v : Nat) : Nat := (v >>> 12) &&& 0xff

/-- Modelled from the spec: virtual-address field `[11:0]` (small-page offset). -/
def VirtAddr.small_page_idx (v : Nat) : Nat := v &&& 0xfff

/-- Modelled from the spec: "L1 descriptor. Tagged variant { Fault,
Section { base[31:20], AP, domain }, Coarse { base[31:10], domain } }".
Each variant keeps the raw 32-bit page-table word. -/
inductive L1Descriptor
  | Fault (raw : Nat)
  | Section (raw : Nat)
  | Coarse (raw : Nat)
  | Reserved (raw : Nat)
deriving DecidableEq, Repr

/-- Modelled from the spec: decode an L1 page-table word by its low two bits
(the ARMv5 first-level descriptor formats: fault / coarse / section /
reserved). -/
def L1Descriptor.from_u32 (x : Nat) : L1Descriptor :=
  match x &&& 3 with
  | 1 => .Coarse x
  | 2 => .Section x
  | 3 => .Reserved x
  | _ => .Fault x

/-- Modelled from the spec: section base `base[31:20]` of a section descriptor. -/
def SectionDescriptor.base_addr (x : Nat) : Nat := x &&& 0xfff00000

/-- Modelled from the spec: AP field of a section descriptor. -/
def SectionDescriptor.ap (x : Nat) : Nat := (x >>> 10) &&& 3

/-- Modelled from the spec: domain field of a section descriptor. -/
def SectionDescriptor.domain (x : Nat) : Nat := (x >>> 5) &&& 0xf

/-- Modelled from the spec: coarse-table base `base[31:10]` of a coarse descriptor. -/
def CoarseDescriptor.base_addr (x : Nat) : Nat := x &&& 0xfffffc00

/-- Modelled from the spec: domain field of a coarse descriptor. -/
def CoarseDescriptor.domain (x : Nat) : Nat := (x >>> 5) &&& 0xf

/-- Modelled from the spec: "L2 descriptor. Tagged variant { Fault, LargePage,
SmallPage { base[31:12], AP0..AP3 } }. Only SmallPage is required by the
core." -/
inductive L2Descriptor
  | Fault (raw : Nat)
  | LargePage (raw : Nat)
  | SmallPage (raw : Nat)
deriving DecidableEq, Repr

/-- Modelled from the spec: decode an L2 page-table word by its low two bits
(fault / large page / small page; the remaining encoding is unused by the
core and mapped to `Fault`). -/
def L2Descriptor.from_u32 (x : Nat) : L2Descriptor :=
  match x &&& 3 with
  | 1 => .LargePage x
  | 2 => .SmallPage x
  | _ => .Fault x

/-- Modelled from the spec: small-page base `base[31:12]`. -/
def SmallPageDescriptor.base_addr (x : Nat) : Nat := x &&& 0xfffff000

/-- Modelled from the spec: select AP0..AP3 of a small-page descriptor with
bits `[11:10]` of the virtual address. -/
def SmallPageDescriptor.get_ap (x : Nat) (vaddr : Nat) : Nat :=
  (x >>> (4 + 2 * ((vaddr >>> 10) &&& 3))) &&& 3

/-- Modelled from the spec: "Permission context. { domain mode, is_privileged,
sysprot_enabled, romprot_enabled }. Produces true/false given a request and
an AP field." -/
structure PermissionContext where
  domain_mode : Nat
  is_priv : Bool
  sysprot : Bool
  romprot : Bool
deriving DecidableEq, Repr

/-- Modelled from the spec: "AP interpreted against `(is_priv, sysprot,
romprot)` per the architecture table; Debug access kind bypasses".  Domain
mode 3 (manager) always grants, modes 0 and 2 (no-access / reserved) deny,
mode 1 (client) consults the ARMv5 AP table.  The `AP = 0, S = R = 1`
combination is architecturally unpredictable and reported as an error. -/
def PermissionContext.validate (ctx : PermissionContext) (req : TLBReq) (ap : Nat) :
    Except String Bool :=
  if req.kind = Access.Debug then .ok true
  else match ctx.domain_mode with
  | 3 => .ok true
  | 1 =>
    match ap with
    | 0 =>
      match ctx.sysprot, ctx.romprot with
      | false, false => .ok false
      | true, false => .ok (ctx.is_priv && decide (req.kind = Access.Read))
      | false, true => .ok (decide (req.kind = Access.Read))
      | true, true => .error "unpredictable AP"
    | 1 => .ok ctx.is_priv
    | 2 => .ok (ctx.is_priv || decide (req.kind = Access.Read))
    | _ => .ok true
  | _ => .ok false

/-! ## CPU state

Only the CPU fields read or written by the verified handlers are carried.
The register file, CPSR bits and the P15 registers are declared outside the
verified source tree; their layout here follows the specification (the CPSR
is flattened into the `cpsr_*` fields). -/

/-- Modelled from the spec: the system-control coprocessor registers
"Control register (MMU-enable, system/ROM protection bits),
translation-table-base register, domain-access control register". -/
structure P15 where
  c1_ctrl : Nat
  c2_ttbr0 : Nat
  c3_dacr : Nat
deriving DecidableEq, Repr

/-- Modelled from the spec: the MMU-enable bit of the control register
(ARMv5 control-register bit 0). -/
def P15.mmu_enabled (p : P15) : Bool := p.c1_ctrl.testBit 0

/-- Modelled from the spec: the system-protection bit of the control register. -/
def P15.sysprot_enabled (p : P15) : Bool := p.c1_ctrl.testBit 8

/-- Modelled from the spec: the ROM-protection bit of the control register. -/
def P15.romprot_enabled (p : P15) : Bool := p.c1_ctrl.testBit 9

/-- Modelled from the spec: the high-vectors bit of the control register. -/
def P15.high_vectors (p : P15) : Bool := p.c1_ctrl.testBit 13

/-- Modelled from the spec: "domain-access control register with two bits per
of 16 domains". -/
def P15.domain (p : P15) (dom : Nat) : Nat := (p.c3_dacr >>> (2 * dom)) &&& 3

/-- The CPU state visible to the verified handlers.  `reg` holds the active
bank of general-purpose registers R0..R14 (the program counter is the
separate `pc` field, holding the fetch PC), `scratch` is the scratch word
used by the two-halfword Thumb BL sequence and by BKPT, and the `cpsr_*`
fields are the CPSR bits the handlers consult. -/
structure Cpu where
  reg : Nat → Nat
  pc : Nat
  scratch : Nat
  cpsr_thumb : Bool
  cpsr_irq_disable : Bool
  cpsr_priv : Bool
  dbg_on : Bool
  irq_input : Bool
  p15 : P15

/-- Write one general-purpose register of the active bank. -/
def Cpu.setReg (c : Cpu) (i v : Nat) : Cpu :=
  { c with reg := fun j => if j = i then v else c.reg j }

/-- Modelled from the spec: "`read_fetch_pc()` — the architectural PC value
used for instruction fetch". -/
def Cpu.read_fetch_pc (c : Cpu) : Nat := c.pc

/-- Modelled from the spec: "`read_exec_pc()` — the architectural value
observed as R15 during execution (fetch PC + 8 in ARM, + 4 in Thumb)". -/
def Cpu.read_exec_pc (c : Cpu) : Nat :=
  (c.pc + (if c.cpsr_thumb then 4 else 8)) % 2 ^ 32

/-- Modelled from the spec: "`write_exec_pc(value)` — sets next fetch PC to
`value`, used by branches". -/
def Cpu.write_exec_pc (c : Cpu) (v : Nat) : Cpu := { c with pc := v % 2 ^ 32 }

/-- Modelled from the spec: "`increment_pc()` — advances fetch PC by 4 (ARM)
or 2 (Thumb)". -/
def Cpu.increment_pc (c : Cpu) : Cpu :=
  { c with pc := (c.pc + (if c.cpsr_thumb then 2 else 4)) % 2 ^ 32 }

/-- Exception kinds (spec: "Reset, Undef, Swi, PrefetchAbort, DataAbort, Irq,
Fiq"; `Undef` carries the offending opcode, as seen at its use sites in
src/back/src/interp.rs). -/
inductive ExceptionType
  | Reset
  | Undef (opcd : Nat)
  | Swi
  | PrefetchAbort
  | DataAbort
  | Irq
  | Fiq
deriving DecidableEq, Repr

/-- Modelled from the spec: the fixed vector of each exception kind ("low
vectors at 0x0000_0000..0x0000_001C, high vectors at
0xFFFF_0000..0xFFFF_001C; selected by a control-register bit"). -/
def exceptionVectorOffset : ExceptionType → Nat
  | .Reset => 0x00
  | .Undef _ => 0x04
  | .Swi => 0x08
  | .PrefetchAbort => 0x0c
  | .DataAbort => 0x10
  | .Irq => 0x18
  | .Fiq => 0x1c

/-- Modelled from the spec: "`generate_exception(kind)` — switches mode to the
kind's mode, copies CPSR to new-mode SPSR, stores a return address, sets
CPSR flags (IRQ masking, Thumb clear, possibly FIQ mask), and sets fetch PC
to the kind's vector".  Only the fields carried by `Cpu` are affected; the
spec's description has no failure case. -/
def Cpu.generate_exception (c : Cpu) (e : ExceptionType) : Cpu :=
  { c with cpsr_thumb := false, cpsr_irq_disable := true, cpsr_priv := true,
           pc := (if c.p15.high_vectors then 0xffff0000 else 0) + exceptionVectorOffset e }

/-! ## MMU walk (src/core/src/cpu/mmu.rs)

The bus is external to the CPU; physical 32-bit reads issued during the walk
are abstracted as a function `busRead32`. -/

/-- `Cpu::get_ctx` (src/core/src/cpu/mmu.rs): the permission context for a
page-table entry's domain. -/
def Cpu.get_ctx (c : Cpu) (dom : Nat) : PermissionContext :=
  { domain_mode := c.p15.domain dom
    is_priv := c.cpsr_priv
    sysprot := c.p15.sysprot_enabled
    romprot := c.p15.romprot_enabled }

/-- `Cpu::l1_fetch` (src/core/src/cpu/mmu.rs): fetch and decode the
first-level descriptor for a virtual address; a fault descriptor is an
error. -/
def Cpu.l1_fetch (c : Cpu) (busRead32 : Nat → Except String Nat) (vaddr : Nat) :
    Except String L1Descriptor :=
  let addr := (c.p15.c2_ttbr0 &&& 0xffffc000) ||| (VirtAddr.l1_idx vaddr <<< 2)
  match busRead32 addr with
  | .error reason => .error reason
  | .ok val =>
    match L1Descriptor.from_u32 val with
    | .Fault _ => .error "L1 Fault descriptor unimpl"
    | d => .ok d

/-- `Cpu::l2_fetch` (src/core/src/cpu/mmu.rs): fetch and decode the
second-level descriptor below a coarse first-level descriptor (the source
marks every other first-level shape unreachable here). -/
def Cpu.l2_fetch (c : Cpu) (busRead32 : Nat → Except String Nat) (vaddr : Nat)
    (d : L1Descriptor) : Except String L2Descriptor :=
  match d with
  | .Coarse e =>
    match busRead32 (CoarseDescriptor.base_addr e ||| (VirtAddr.l2_idx_coarse vaddr <<< 2)) with
    | .error reason => .error reason
    | .ok val => .ok (L2Descriptor.from_u32 val)
  | _ => .error "unreachable"

/-- `Cpu::resolve_section` (src/core/src/cpu/mmu.rs). -/
def Cpu.resolve_section (c : Cpu) (req : TLBReq) (d : Nat) : Except String Nat :=
  match (c.get_ctx (SectionDescriptor.domain d)).validate req (SectionDescriptor.ap d) with
  | .error reason => .error reason
  | .ok true => .ok (SectionDescriptor.base_addr d ||| VirtAddr.section_idx req.vaddr)
  | .ok false => .error "Domain access faults are unimplemented"

/-- `Cpu::resolve_coarse` (src/core/src/cpu/mmu.rs). -/
def Cpu.resolve_coarse (c : Cpu) (busRead32 : Nat → Except String Nat) (req : TLBReq)
    (d : Nat) : Except String Nat :=
  match c.l2_fetch busRead32 req.vaddr (L1Descriptor.Coarse d) with
  | .error reason => .error reason
  | .ok desc =>
    match desc with
    | .SmallPage entry =>
      match (c.get_ctx (CoarseDescriptor.domain d)).validate req
          (SmallPageDescriptor.get_ap entry req.vaddr) with
      | .error reason => .error reason
      | .ok true => .ok (SmallPageDescriptor.base_addr entry ||| VirtAddr.small_page_idx req.vaddr)
      | .ok false => .error "Domain access faults are unimplemented"
    | _ => .error "L2 descriptor unimplemented"

/-- `Cpu::translate` (src/core/src/cpu/mmu.rs): translate a virtual address
into a physical address; with the MMU disabled the virtual address is
returned unchanged. -/
def Cpu.translate (c : Cpu) (busRead32 : Nat → Except String Nat) (req : TLBReq) :
    Except String Nat :=
  if c.p15.mmu_enabled then
    match c.l1_fetch busRead32 req.vaddr with
    | .error reason => .error reason
    | .ok desc =>
      match desc with
      | .Section entry => c.resolve_section req entry
      | .Coarse entry => c.resolve_coarse busRead32 req entry
      | _ => .error "TLB first-level descriptor unimplemented"
  else .ok req.vaddr

/-! ## Claim C1 -/

/-- C1: if the CP15 control register has the MMU-enable bit clear, then for
every 32-bit virtual address and every access kind, `translate` returns the
virtual address unchanged as the physical address. -/
theorem translate_identity_when_mmu_disabled (c : Cpu) (busRead32 : Nat → Except String Nat)
    (v : Nat) (k : Access) (hmmu : c.p15.mmu_enabled = false) (hv : v < 2 ^ 32) :
    c.translate busRead32 { vaddr := v, kind := k } = .ok v := by
  simp [Cpu.translate, hmmu]

/-- Concrete instance of C1: a CPU whose control register is zero translates
virtual address 0x12345678 to itself. -/
theorem translate_identity_when_mmu_disabled_witness :
    (Cpu.mk (fun _ => 0) 0 0 false false true false false (P15.mk 0 0 0)).translate
      (fun _ => .error "no bus") { vaddr := 0x12345678, kind := Access.Read } =
      .ok 0x12345678 :=
  translate_identity_when_mmu_disabled _ _ _ _ (by decide) (by decide)

/-! ## Dispatch and step results -/

/-- `DispatchRes` (src/back/src/interp/dispatch.rs, used throughout the
interpreter): the retirement status a handler reports back to `cpu_step`.
The `anyhow::Error` payload of `FatalErr` is modelled as a `String`. -/
inductive DispatchRes
  | RetireOk
  | RetireBranch
  | CondFailed
  | Breakpoint
  | Exception (e : ExceptionType)
  | FatalErr (reason : String)
deriving DecidableEq, Repr

/-- `CpuRes`: the step result `cpu_step` returns to the main loop.  The enum
is declared in the core cpu module; its variants are exactly the four
matched exhaustively by the main loop in src/back/src/interp.rs. -/
inductive CpuRes
  | StepOk
  | StepException (e : ExceptionType)
  | HaltEmulation (reason : String)
  | Semihosting
deriving DecidableEq, Repr

/-- The environment a CPU step runs in: the memory reads used for fetching
(`Cpu::read16` / `Cpu::read32`, which route through the MMU and the bus,
both external to the step), the condition-code evaluation
(`RegisterFile::cond_pass`), and the two dispatch lookup tables applied to a
fetched opcode (`INTERP_LUT.thumb` / `INTERP_LUT.arm` composed with the
selected handler). -/
structure StepEnv where
  read16 : Cpu → Nat → Except String Nat
  read32 : Cpu → Nat → Except String Nat
  condPass : Cpu → Nat → Except String Bool
  thumbExec : Cpu → Nat → DispatchRes × Cpu
  armExec : Cpu → Nat → DispatchRes × Cpu

/-- The observable outcome of one CPU step: the result returned to the main
loop, the CPU state after the step, the list of exceptions generated via
`generate_exception` during the step (in order), and whether the step set
the backend's `debugger_attached` flag. -/
structure StepOut where
  res : CpuRes
  cpu : Cpu
  gen : List ExceptionType
  dbgAttach : Bool

/-- The retirement phase of `InterpBackend::cpu_step`
(src/back/src/interp.rs, the `match disp_res` at lines 325-370): adjust the
program counter, detect the semihosting SVC escape, and generate any
exception the handler requested.  `gen0` is the list of exceptions already
generated earlier in the step. -/
def step_retire (env : StepEnv) (gen0 : List ExceptionType) (disp : DispatchRes) (c : Cpu) :
    StepOut :=
  match disp with
  | .Breakpoint => ⟨.StepOk, c.increment_pc, gen0, true⟩
  | .RetireBranch => ⟨.StepOk, c, gen0, false⟩
  | .RetireOk => ⟨.StepOk, c.increment_pc, gen0, false⟩
  | .CondFailed => ⟨.StepOk, c.increment_pc, gen0, false⟩
  | .Exception e =>
    if e = ExceptionType.Swi then
      -- Detect the semihosting escape: the PC has not been advanced yet, so
      -- the opcode is re-read at the fetch PC (failures fall back to 0).
      if c.cpsr_thumb then
        if (env.read16 c c.read_fetch_pc).toOption.getD 0 = 0xdfab then
          ⟨.Semihosting, c.increment_pc, gen0, false⟩
        else ⟨.StepException e, c.generate_exception e, gen0 ++ [e], false⟩
      else
        if (env.read32 c c.read_fetch_pc).toOption.getD 0 &&& 0x00ffffff = 0xab then
          ⟨.Semihosting, c.increment_pc, gen0, false⟩
        else ⟨.StepException e, c.generate_exception e, gen0 ++ [e], false⟩
    else ⟨.StepException e, c.generate_exception e, gen0 ++ [e], false⟩
  | .FatalErr reason => ⟨.HaltEmulation reason, c, gen0, false⟩

/-- `InterpBackend::cpu_step` (src/back/src/interp.rs lines 278-374).
`none` models the `assert!((fetch_pc & 1) == 0)` panic.  The logging-only
calls (`dbg_print`, `update_boot_status`) have no effect on the modelled
state and are omitted; `generate_exception` has no failure case in the
spec's model, so the source's `Err` branches after it do not arise. -/
def cpu_step (env : StepEnv) (c0 : Cpu) : Option StepOut :=
  if c0.read_fetch_pc % 2 ≠ 0 then none
  else
    -- Sample the IRQ line: if it is high and IRQs are not disabled in the
    -- CPSR, take an IRQ exception.
    let irqTaken := !c0.cpsr_irq_disable && c0.irq_input
    let gen0 : List ExceptionType := if irqTaken then [ExceptionType.Irq] else []
    let c1 := if irqTaken then c0.generate_exception ExceptionType.Irq else c0
    -- Fetch/decode/execute an ARM or Thumb instruction depending on the
    -- Thumb flag; a fetch failure halts emulation.
    if c1.cpsr_thumb then
      match env.read16 c1 c1.read_fetch_pc with
      | .error reason => some ⟨.HaltEmulation reason, c1, gen0, false⟩
      | .ok opcd =>
        let (disp, c2) := env.thumbExec c1 opcd
        some (step_retire env gen0 disp c2)
    else
      match env.read32 c1 c1.read_fetch_pc with
      | .error reason => some ⟨.HaltEmulation reason, c1, gen0, false⟩
      | .ok opcd =>
        match env.condPass c1 opcd with
        | .ok true =>
          let (disp, c2) := env.armExec c1 opcd
          some (step_retire env gen0 disp c2)
        | .ok false => some (step_retire env gen0 .CondFailed c1)
        | .error reason => some (step_retire env gen0 (.FatalErr reason) c1)

/-! ## Instruction-field views (src/back/src/bits) -/

/-- Thumb BL/BLX halfword: the 11-bit immediate (src/back/src/bits/thumb.rs). -/
def BlBits.imm11 (op : Nat) : Nat := op &&& 0x07ff

/-- Thumb BL/BLX halfword: the two H bits selecting prefix/suffix. -/
def BlBits.h (op : Nat) : Nat := (op >>> 11) &&& 0x3

/-- Thumb unconditional branch: the 11-bit immediate (src/back/src/bits/thumb.rs). -/
def BranchAltBits.imm11 (op : Nat) : Nat := op &&& 0x07ff

/-- ARM BKPT: the 12-bit immediate field (src/back/src/bits/arm.rs). -/
def BkptBits.imm12 (op : Nat) : Nat := (op &&& 0x000fff00) >>> 8

/-- ARM BKPT: the 4-bit immediate field. -/
def BkptBits.imm4 (op : Nat) : Nat := op &&& 0xf

/-- ARM BKPT: the assembled 16-bit immediate. -/
def BkptBits.imm16 (op : Nat) : Nat := (BkptBits.imm12 op <<< 4) ||| BkptBits.imm4 op

/-- ARM load/store-multiple: the W (writeback) bit (src/back/src/bits/arm.rs). -/
def LsMultiBits.w (op : Nat) : Bool := op &&& 0x00200000 ≠ 0

/-- ARM load/store-multiple: the base register Rn. -/
def LsMultiBits.rn (op : Nat) : Nat := (op &&& 0x000f0000) >>> 16

/-- ARM load/store-multiple: the 16-bit register-list bitmap. -/
def LsMultiBits.register_list (op : Nat) : Nat := op &&& 0x0000ffff

/-! ## Thumb branch handlers (src/back/src/interp/thumb/branch.rs) -/

/-- `bl_prefix`: the first halfword of a Thumb BL/BLX pair.  Stores
`exec_pc + sign_extend(imm11 << 12, 23)` (computed in wrapping `i32`
arithmetic and truncated back to `u32`) in the CPU scratch word. -/
def bl_prefix (cpu : Cpu) (op : Nat) : DispatchRes × Cpu :=
  let offset := sign_extend (BlBits.imm11 op <<< 12) 23
  let res := toI32 cpu.read_exec_pc + offset
  (DispatchRes.RetireOk, { cpu with scratch := ofI32 res })

/-- `bl_imm_suffix`: the second halfword of a Thumb BL pair.  Branches to
`scratch + (imm11 << 1)` and sets `LR = fetch_pc + 2 | 1`; `none` models the
`assert!(op.h() == 0x3)` panic. -/
def bl_imm_suffix (cpu : Cpu) (op : Nat) : Option (DispatchRes × Cpu) :=
  if BlBits.h op ≠ 0x3 then none
  else
    let offset := BlBits.imm11 op <<< 1
    let dest_pc := (cpu.scratch + offset) % 2 ^ 32
    let new_lr := (cpu.read_fetch_pc + 2) % 2 ^ 32 ||| 1
    some (DispatchRes.RetireBranch, (cpu.setReg 14 new_lr).write_exec_pc dest_pc)

/-- `b_unconditional`: Thumb unconditional branch.  An offset of -4 would
branch to the instruction's own address, so the handler refuses it with a
fatal error; the source formats the PC into the message, which is elided
here.  The `<< 1` of the source is an `i32` shift of a value in
[-1024, 1023] and is written as multiplication by 2. -/
def b_unconditional (cpu : Cpu) (op : Nat) : DispatchRes × Cpu :=
  let offset : Int := 2 * sign_extend (BranchAltBits.imm11 op) 11
  if offset = -4 then
    (DispatchRes.FatalErr "Unconditional branch would loop forever", cpu)
  else
    let dest_pc := ofI32 (toI32 cpu.read_exec_pc + offset)
    (DispatchRes.RetireBranch, cpu.write_exec_pc dest_pc)

/-! ## Breakpoint and SVC handlers -/

/-- `bkpt` (src/back/src/interp/arm/misc.rs): the breakpoint instruction.
Immediates 0xfffb..=0xffff are reserved debugger commands (stop, toggle /
enable / disable tracing, dump RAM); every other value is stored in the CPU
scratch register with a `Breakpoint` dispatch result.  The result of the
RAM dump attempted for 0xfffb is an oracle argument (it is host-filesystem
I/O); the `unreachable!()` arm of the source's inner match cannot be
selected for `cmd` in 0xfffc..=0xfffe and is mapped with the 0b00 arm. -/
def bkpt (dumpResult : Except String Unit) (cpu : Cpu) (op : Nat) : DispatchRes × Cpu :=
  let cmd := BkptBits.imm16 op % 2 ^ 16
  if cmd = 0xffff then
    (DispatchRes.FatalErr "Breakpoint 0xffff - stopping emulation", cpu)
  else if 0xfffc ≤ cmd ∧ cmd ≤ 0xfffe then
    if cmd &&& 0x3 = 2 then (DispatchRes.RetireOk, { cpu with dbg_on := !cpu.dbg_on })
    else if cmd &&& 0x3 = 1 then (DispatchRes.RetireOk, { cpu with dbg_on := true })
    else (DispatchRes.RetireOk, { cpu with dbg_on := false })
  else if cmd = 0xfffb then
    match dumpResult with
    | .ok _ => (DispatchRes.RetireOk, cpu)
    | .error e => (DispatchRes.FatalErr e, cpu)
  else
    (DispatchRes.Breakpoint, { cpu with scratch := cmd })

/-- `svc` (src/back/src/interp/thumb/misc.rs): raises a Swi exception. -/
def svc (cpu : Cpu) (_op : Nat) : DispatchRes × Cpu :=
  (DispatchRes.Exception ExceptionType.Swi, cpu)

/-- Modelled from the spec: the ARM SVC handler ("SVC: raises a Swi
exception"); its source file is outside the verified tree. -/
def svc_arm (cpu : Cpu) (_op : Nat) : DispatchRes × Cpu :=
  (DispatchRes.Exception ExceptionType.Swi, cpu)

/-! ## Store-multiple handlers (src/back/src/interp/arm/loadstore.rs)

The 32-bit bus writes issued by STM/STMDB (`Cpu::write32`, through the MMU
and the bus) are abstracted by a success oracle `w`; the list returned
alongside the loop's final address records the `(address, value)` pairs
successfully written, in order. -/

/-- The `for i in 0..16` store loop shared by `stm` and `stmdb`: write each
register whose bit is set in `reglist` (R15 stores the execution PC),
advancing the address by 4 per store and stopping at the first failed
write. -/
def stmWrites (w : Nat → Nat → Except String Unit) (cpu : Cpu) (reglist : Nat) :
    List Nat → Nat → List (Nat × Nat) × Except String Nat
  | [], addr => ([], .ok addr)
  | i :: rest, addr =>
    if reglist &&& (1 <<< i) ≠ 0 then
      let val := if i = 15 then cpu.read_exec_pc else cpu.reg i
      match w addr val with
      | .error reason => ([], .error reason)
      | .ok _ =>
        let (tr, res) := stmWrites w cpu reglist rest ((addr + 4) % 2 ^ 32)
        ((addr, val) :: tr, res)
    else stmWrites w cpu reglist rest addr

/-- `stm`: store multiple, increment-after.  `none` models the
`assert_ne!(op.rn(), 15)` and `assert!(addr == wb_addr)` panics. -/
def stm (w : Nat → Nat → Except String Unit) (cpu : Cpu) (op : Nat) :
    Option (DispatchRes × Cpu × List (Nat × Nat)) :=
  if LsMultiBits.rn op = 15 then none
  else
    let reglist := LsMultiBits.register_list op
    let addr := cpu.reg (LsMultiBits.rn op)
    let wb_addr := (addr + count_ones reglist * 4) % 2 ^ 32
    let (tr, res) := stmWrites w cpu reglist (List.range 16) addr
    match res with
    | .error reason => some (DispatchRes.FatalErr reason, cpu, tr)
    | .ok addrEnd =>
      if addrEnd ≠ wb_addr then none
      else
        let cpu' := if LsMultiBits.w op then cpu.setReg (LsMultiBits.rn op) wb_addr else cpu
        some (DispatchRes.RetireOk, cpu', tr)

/-- `stmdb`: store multiple, decrement-before.  The base subtraction is the
wrapping `u32` subtraction of the source; `none` models the
`assert_ne!(op.rn(), 15)` panic. -/
def stmdb (w : Nat → Nat → Except String Unit) (cpu : Cpu) (op : Nat) :
    Option (DispatchRes × Cpu × List (Nat × Nat)) :=
  if LsMultiBits.rn op = 15 then none
  else
    let reglist := LsMultiBits.register_list op
    let addr := (cpu.reg (LsMultiBits.rn op) + (2 ^ 32 - count_ones reglist * 4 % 2 ^ 32)) % 2 ^ 32
    let wb_addr := addr
    let (tr, res) := stmWrites w cpu reglist (List.range 16) addr
    match res with
    | .error reason => some (DispatchRes.FatalErr reason, cpu, tr)
    | .ok _ =>
      let cpu' := if LsMultiBits.w op then cpu.setReg (LsMultiBits.rn op) wb_addr else cpu
      some (DispatchRes.RetireOk, cpu', tr)

/-! ## Hollywood interrupt controller (src/core/src/dev/hlwd/irq.rs) -/

/-- The named Hollywood IRQ sources. -/
inductive HollywoodIrq
  | Timer | Nand | Aes | Sha | Ehci | Ohci0 | Ohci1 | Sdhc | Wifi
  | PpcGpio | ArmGpio | RstBtn | Di | PpcIpc | ArmIpc
deriving DecidableEq, Repr

/-- The 32-bit mask of each IRQ source (the `repr(u32)` discriminants). -/
def HollywoodIrq.mask : HollywoodIrq → Nat
  | .Timer => 0x00000001
  | .Nand => 0x00000002
  | .Aes => 0x00000004
  | .Sha => 0x00000008
  | .Ehci => 0x00000010
  | .Ohci0 => 0x00000020
  | .Ohci1 => 0x00000040
  | .Sdhc => 0x00000080
  | .Wifi => 0x00000100
  | .PpcGpio => 0x00000400
  | .ArmGpio => 0x00000800
  | .RstBtn => 0x00020000
  | .Di => 0x00040000
  | .PpcIpc => 0x40000000
  | .ArmIpc => 0x80000000

/-- `IrqInterface`: per-side status and enable bits plus the two output
lines (the `IrqBits` newtype wrappers are flattened to `Nat`). -/
structure IrqInterface where
  arm_irq_output : Bool
  ppc_irq_output : Bool
  ppc_irq_status : Nat
  ppc_irq_enable : Nat
  arm_irq_status : Nat
  arm_irq_enable : Nat
  arm_fiq_enable : Nat
deriving DecidableEq, Repr

/-- `IrqInterface::update_irq_lines`: recompute both output IRQ lines. -/
def IrqInterface.update_irq_lines (s : IrqInterface) : IrqInterface :=
  { s with arm_irq_output := s.arm_irq_status &&& s.arm_irq_enable ≠ 0,
           ppc_irq_output := s.ppc_irq_status &&& s.ppc_irq_enable ≠ 0 }

/-- `IrqInterface::assert`: set the status bit on each side whose enable bit
for the source is set, then update the output lines. -/
def IrqInterface.assert (s : IrqInterface) (irq : HollywoodIrq) : IrqInterface :=
  let s1 := if s.arm_irq_enable &&& irq.mask ≠ 0 then
      { s with arm_irq_status := s.arm_irq_status ||| irq.mask } else s
  let s2 := if s1.ppc_irq_enable &&& irq.mask ≠ 0 then
      { s1 with ppc_irq_status := s1.ppc_irq_status ||| irq.mask } else s1
  s2.update_irq_lines

/-- `IrqInterface::write_handler`: MMIO writes to the IRQ register block.
Offset 0x08 is write-1-to-clear on the ARM status bits, 0x04 / 0x0c / 0x10
latch enables, 0x2c is a logged no-op; every handled write ends by updating
the output lines, and unhandled offsets are errors (leaving the state
unchanged). -/
def IrqInterface.write_handler (s : IrqInterface) (off : Nat) (val : Nat) :
    Except String IrqInterface :=
  match (match off with
    | 0x04 => some { s with ppc_irq_enable := val }
    | 0x08 => some { s with arm_irq_status := s.arm_irq_status &&& not32 val }
    | 0x0c => some { s with arm_irq_enable := val }
    | 0x10 => some { s with arm_fiq_enable := val }
    | 0x2c => some s
    | _ => none) with
  | some s1 => .ok s1.update_irq_lines
  | none => .error "Unhandled write on HLWD IRQ interface"

/-! ## Big-endian memory (src/core/src/mem.rs)

`BigEndianMemory` is a byte buffer with checked big-endian accesses.  The
optional write-tracking journal only mirrors writes into a side table for
persistence and never changes the visible byte contents, so it is not
carried here. -/

/-- A `BigEndianMemory`: the backing bytes. -/
structure BigEndianMemory where
  data : List Nat
deriving DecidableEq, Repr

/-- `to_be_bytes`: the `w` big-endian bytes of `val`. -/
def beBytes (w : Nat) (val : Nat) : List Nat :=
  (List.range w).map (fun i => val >>> (8 * (w - 1 - i)) % 256)

/-- `from_be_bytes`: assemble a big-endian byte slice into a value. -/
def fromBeBytes (bs : List Nat) : Nat :=
  bs.foldl (fun acc b => acc * 256 + b % 256) 0

/-- `BigEndianMemory::read::<T>`: checked big-endian read of `w` bytes at
`off` (`w` is `size_of::<T>`). -/
def BigEndianMemory.read (m : BigEndianMemory) (off : Nat) (w : Nat) : Except String Nat :=
  if off + w > m.data.length then .error "Out-of-bounds read"
  else .ok (fromBeBytes ((m.data.drop off).take w))

/-- `BigEndianMemory::write::<T>`: checked big-endian write of the `w` bytes
of `val` at `off`.  The pair returns the `Result` together with the memory
after the call, mirroring the in-place `&mut self` mutation: the bounds
check precedes any mutation, so on error the memory is returned unchanged. -/
def BigEndianMemory.write (m : BigEndianMemory) (off : Nat) (w : Nat) (val : Nat) :
    Except String Unit × BigEndianMemory :=
  if off + w > m.data.length then (.error "Out-of-bounds write", m)
  else (.ok (), { data := m.data.take off ++ beBytes w val ++ m.data.drop (off + w) })

/-! ## SD card model (src/core/src/dev/sdhc/card.rs) -/

/-- `CardState`: the card states of the SD specification. -/
inductive CardState
  | Idle | Ready | Ident | Stby | Trans | Data | Rcv | Prg | Dis | Ina
deriving DecidableEq, Repr

/-- `CardState::bits_for_card_status`; `none` models the `panic!()` on
`Ina`. -/
def CardState.bits_for_card_status : CardState → Option Nat
  | .Idle => some 0
  | .Ready => some 1
  | .Ident => some 2
  | .Stby => some 3
  | .Trans => some 4
  | .Data => some 5
  | .Rcv => some 6
  | .Prg => some 7
  | .Dis => some 8
  | .Ina => none

/-- `CardTXStatus`: the transaction state of the card. -/
inductive CardTXStatus
  | None | MultiReadPending | MultiReadInProgress | MultiWritePending
  | MultiWriteInProgress | DMAReadInProgress | DMAWriteInProgress
deriving DecidableEq, Repr

/-- `Response`: a command response (`R2` payloads are `u128`). -/
inductive Response
  | Regular (x : Nat)
  | R2 (x : Nat)
deriving DecidableEq, Repr

/-- `Command`: the parsed command register (only the index is consulted by
the card; the remaining parsed fields are unused underscore fields in the
source). -/
structure Command where
  index : Nat
deriving DecidableEq, Repr

/-- `Command::from::<u32>`: the command index is bits [13:8] of the command
register value. -/
def Command.fromU32 (value : Nat) : Command :=
  { index := (value &&& 0x3f00) >>> 8 }

/-- `Card`: the emulated SD card.  The backing memory, `rw_index` and
`rw_stop` bookkeeping are irrelevant to command-state transitions and are
summarised by `rw_index`/`rw_stop` alone; `rca` is the optional `NonZeroU16`
relative card address. -/
structure Card where
  state : CardState
  acmd : Bool
  ocr : Nat
  cid : Nat
  rca : Option Nat
  csd : Nat
  selected : Bool
  rw_index : Nat
  rw_stop : Nat
  tx_status : CardTXStatus
deriving DecidableEq, Repr

/-- `Card::cmd0`: go idle. -/
def Card.cmd0 (c : Card) (_argument : Nat) : Response × Card :=
  (Response.Regular 0, { c with state := CardState.Idle })

/-- `Card::cmd8`: echo the voltage-check argument. -/
def Card.cmd8 (c : Card) (argument : Nat) : Response × Card :=
  (Response.Regular (argument &&& 0xfff), c)

/-- `Card::acmd41`: report the OCR and become Ready. -/
def Card.acmd41 (c : Card) (_argument : Nat) : Response × Card :=
  (Response.Regular c.ocr, { c with state := CardState.Ready })

/-- `Card::cmd2`: report the CID and become Ident. -/
def Card.cmd2 (c : Card) (_argument : Nat) : Response × Card :=
  (Response.R2 c.cid, { c with state := CardState.Ident })

/-- `Card::cmd3`: become Stby and publish a relative card address.  The
source first stores 0x4321, then (the RCA now being `Some`) replaces it by
`checked_add(1).unwrap()`; `none` models that unwrap and the
`bits_for_card_status` panic, neither of which can fire here. -/
def Card.cmd3 (c : Card) (_argument : Nat) : Option (Response × Card) :=
  let c1 := { c with state := CardState.Stby, rca := some 0x4321 }
  match c1.rca with
  | some existing =>
    if existing + 1 > 0xffff then none
    else
      let c2 := { c1 with rca := some (existing + 1) }
      match c2.rca, c2.state.bits_for_card_status with
      | some r, some b => some (Response.Regular ((r <<< 16) ||| b), c2)
      | _, _ => none
  | none =>
    let c2 := { c1 with rca := some 0x4321 }
    match c2.rca, c2.state.bits_for_card_status with
    | some r, some b => some (Response.Regular ((r <<< 16) ||| b), c2)
    | _, _ => none

/-- `Card::cmd9`: report the CSD. -/
def Card.cmd9 (c : Card) (_argument : Nat) : Response × Card :=
  (Response.R2 c.csd, c)

/-- `Card::cmd7`: select the card when the upper 16 bits of the argument
match the published RCA (Dis resumes to Prg, otherwise Trans); deselect it
otherwise (Prg parks in Dis, otherwise Stby).  No response either way. -/
def Card.cmd7 (c : Card) (argument : Nat) : Option Response × Card :=
  let selected_addr := (argument >>> 16) % 2 ^ 16
  match c.rca with
  | some rca =>
    if selected_addr = rca then
      (none, { c with selected := true,
                      state := if c.state = CardState.Dis then CardState.Prg
                               else CardState.Trans })
    else
      (none, { c with selected := false,
                      state := if c.state = CardState.Prg then CardState.Dis
                               else CardState.Stby })
  | none =>
    (none, { c with selected := false,
                    state := if c.state = CardState.Prg then CardState.Dis
                             else CardState.Stby })

/-- `Card::cmd16`: check the block length (an error bit for any length other
than 512); `none` models the `bits_for_card_status` panic on `Ina`. -/
def Card.cmd16 (c : Card) (argument : Nat) : Option (Response × Card) :=
  match c.state.bits_for_card_status with
  | none => none
  | some b =>
    let response := b <<< 9
    some (Response.Regular (if argument ≠ 512 then response ||| (1 <<< 29) else response), c)

/-- `Card::cmd18`: start a multi-block read. -/
def Card.cmd18 (c : Card) (argument : Nat) : Option (Response × Card) :=
  let c1 := { c with state := CardState.Data, rw_index := argument * 512 }
  match c1.state.bits_for_card_status with
  | none => none
  | some b =>
    some (Response.Regular (b <<< 9),
      { c1 with tx_status := CardTXStatus.MultiReadPending })

/-- `Card::cmd25`: start a multi-block write. -/
def Card.cmd25 (c : Card) (argument : Nat) : Option (Response × Card) :=
  let c1 := { c with state := CardState.Rcv, rw_index := argument * 512 }
  match c1.state.bits_for_card_status with
  | none => none
  | some b =>
    some (Response.Regular (b <<< 9),
      { c1 with tx_status := CardTXStatus.MultiWritePending })

/-- `Card::issue`: dispatch a command to the card.  The `acmd` latch is
consumed (`mem::replace(&mut self.acmd, false)`) before matching; CMD55 sets
it for the next command.  `none` models the `unimplemented!()` panic. -/
def Card.issue (c0 : Card) (cmd : Command) (argument : Nat) :
    Option (Option Response × Card) :=
  let acmd := c0.acmd
  let c := { c0 with acmd := false }
  match acmd, cmd.index with
  | false, 0 => let (r, c') := c.cmd0 argument; some (some r, c')
  | false, 8 => let (r, c') := c.cmd8 argument; some (some r, c')
  | true, 41 => let (r, c') := c.acmd41 argument; some (some r, c')
  | false, 2 => let (r, c') := c.cmd2 argument; some (some r, c')
  | false, 3 => (c.cmd3 argument).map (fun rc => (some rc.1, rc.2))
  | false, 9 => let (r, c') := c.cmd9 argument; some (some r, c')
  | false, 7 => let (r, c') := c.cmd7 argument; some (r, c')
  | false, 16 => (c.cmd16 argument).map (fun rc => (some rc.1, rc.2))
  | false, 18 => (c.cmd18 argument).map (fun rc => (some rc.1, rc.2))
  | false, 25 => (c.cmd25 argument).map (fun rc => (some rc.1, rc.2))
  | _, 55 => some (some (Response.Regular 0), { c with acmd := true })
  | _, _ => none

/-- The card state after issuing a command (the identity on the
`unimplemented!()` paths, which the verified command sequences never take). -/
def afterIssue (c : Card) (idx : Nat) (arg : Nat) : Card :=
  match c.issue { index := idx } arg with
  | some rc => rc.2
  | none => c

/-! ## Claim C7 -/

/-- C7: `assert(src)` sets the ARM-side (resp. PPC-side) status bit exactly
when the corresponding enable bit is set, and after every `assert` and every
successfully handled IRQ-register write the output lines equal
`(status & enable) != 0` on each side. -/
theorem irq_assert_and_write_update_lines :
    (∀ (s : IrqInterface) (irq : HollywoodIrq),
      (s.assert irq).arm_irq_status =
        (if s.arm_irq_enable &&& irq.mask ≠ 0 then s.arm_irq_status ||| irq.mask
         else s.arm_irq_status) ∧
      (s.assert irq).ppc_irq_status =
        (if s.ppc_irq_enable &&& irq.mask ≠ 0 then s.ppc_irq_status ||| irq.mask
         else s.ppc_irq_status) ∧
      (s.assert irq).arm_irq_output =
        decide ((s.assert irq).arm_irq_status &&& (s.assert irq).arm_irq_enable ≠ 0) ∧
      (s.assert irq).ppc_irq_output =
        decide ((s.assert irq).ppc_irq_status &&& (s.assert irq).ppc_irq_enable ≠ 0)) ∧
    (∀ (s : IrqInterface) (off val : Nat) (s' : IrqInterface),
      s.write_handler off val = .ok s' →
      s'.arm_irq_output = decide (s'.arm_irq_status &&& s'.arm_irq_enable ≠ 0) ∧
      s'.ppc_irq_output = decide (s'.ppc_irq_status &&& s'.ppc_irq_enable ≠ 0)) := by
  constructor
  · intro s irq
    unfold IrqInterface.assert IrqInterface.update_irq_lines
    split <;> split <;> simp_all
  · intro s off val s' h
    unfold IrqInterface.write_handler at h
    split at h
    · cases h
      unfold IrqInterface.update_irq_lines
      simp
    · cases h

/-- Concrete instance of C7: with enable masks zero, asserting the Timer IRQ
leaves the ARM status bits untouched, and a write latching the ARM enable
register leaves the output lines consistent with `(status & enable) != 0`. -/
theorem irq_assert_and_write_update_lines_witness :
    ((IrqInterface.mk false false 0 0 0 0 0).assert HollywoodIrq.Timer).arm_irq_status =
      (if (IrqInterface.mk false false 0 0 0 0 0).arm_irq_enable &&&
          HollywoodIrq.Timer.mask ≠ 0 then
        (IrqInterface.mk false false 0 0 0 0 0).arm_irq_status ||| HollywoodIrq.Timer.mask
       else (IrqInterface.mk false false 0 0 0 0 0).arm_irq_status) ∧
    (IrqInterface.mk true false 0 0 5 1 0).arm_irq_output =
      decide ((IrqInterface.mk true false 0 0 5 1 0).arm_irq_status &&&
        (IrqInterface.mk true false 0 0 5 1 0).arm_irq_enable ≠ 0) :=
  ⟨(irq_assert_and_write_update_lines.1 (IrqInterface.mk false false 0 0 0 0 0)
      HollywoodIrq.Timer).1,
   (irq_assert_and_write_update_lines.2 (IrqInterface.mk false false 0 0 5 0 0) 0x0c 1
      (IrqInterface.mk true false 0 0 5 1 0) rfl).1⟩

/-! ## Claim C8 -/

/-- C8: a 1-, 2- or 4-byte big-endian read or write errors out exactly when
`offset + width` exceeds the memory length, and an erroring write leaves the
contents unchanged. -/
theorem mem_checked_access (m : BigEndianMemory) (off w val : Nat)
    (hw : w = 1 ∨ w = 2 ∨ w = 4) :
    ((∃ e, m.read off w = .error e) ↔ off + w > m.data.length) ∧
    ((∃ e, (m.write off w val).1 = .error e) ↔ off + w > m.data.length) ∧
    (off + w > m.data.length → (m.write off w val).2 = m) := by
  unfold BigEndianMemory.read BigEndianMemory.write
  by_cases h : off + w > m.data.length <;> simp [h]

/-- Concrete instance of C8: a 4-byte write at offset 1 into a 3-byte memory
is out of bounds and leaves the bytes unchanged. -/
theorem mem_checked_access_witness :
    (1 + 4 > (BigEndianMemory.mk [0, 0, 0]).data.length) ∧
    ((BigEndianMemory.mk [0, 0, 0]).write 1 4 0xdeadbeef).2 = BigEndianMemory.mk [0, 0, 0] :=
  ⟨by decide,
   (mem_checked_access (BigEndianMemory.mk [0, 0, 0]) 1 4 0xdeadbeef
      (Or.inr (Or.inr rfl))).2.2 (by decide)⟩

/-! ## Claim C9 -/

/-- Recover the upper 16 bits of a `u32` assembled from a 16-bit value and
16 low bits. -/
theorem upper16_of_concat (x : Nat) (hx : x < 2 ^ 16) :
    ((1126301696 : Nat) ||| x) >>> 16 % 65536 = 17186 := by
  have h2 := Nat.mul_add_lt_is_or (i := 16) hx 17186
  norm_num at h2
  rw [← h2, Nat.shiftRight_eq_div_pow]
  omega

/-- C9: from any card with the application-command latch clear, CMD0 leaves
the card Idle, then CMD2 leaves it Ident, then CMD3 leaves it Stby and
publishes the RCA 0x4322 in the upper half of its response, and CMD7 with
any argument whose upper 16 bits are that RCA leaves the card Trans. -/
theorem sdhc_command_monotonicity (c : Card) (hacmd : c.acmd = false)
    (a0 a2 a3 x : Nat) (hx : x < 2 ^ 16) :
    (afterIssue c 0 a0).state = CardState.Idle ∧
    (afterIssue (afterIssue c 0 a0) 2 a2).state = CardState.Ident ∧
    (afterIssue (afterIssue (afterIssue c 0 a0) 2 a2) 3 a3).state = CardState.Stby ∧
    ((afterIssue (afterIssue c 0 a0) 2 a2).issue { index := 3 } a3 =
      some (some (Response.Regular ((0x4322 <<< 16) ||| 3)),
        afterIssue (afterIssue (afterIssue c 0 a0) 2 a2) 3 a3)) ∧
    (afterIssue (afterIssue (afterIssue c 0 a0) 2 a2) 3 a3).rca = some 0x4322 ∧
    (afterIssue (afterIssue (afterIssue c 0 a0) 2 a2) 3 a3 |>.issue { index := 7 }
        ((0x4322 <<< 16) ||| x)).map (fun rc => rc.2.state) = some CardState.Trans := by
  have h1 : afterIssue c 0 a0 = { c with acmd := false, state := CardState.Idle } := by
    simp [afterIssue, Card.issue, hacmd, Card.cmd0]
  have h2 : afterIssue (afterIssue c 0 a0) 2 a2 =
      { c with acmd := false, state := CardState.Ident } := by
    rw [h1]; simp [afterIssue, Card.issue, Card.cmd2]
  have h3i : (afterIssue (afterIssue c 0 a0) 2 a2).issue { index := 3 } a3 =
      some (some (Response.Regular ((0x4322 <<< 16) ||| 3)),
        { c with acmd := false, state := CardState.Stby, rca := some 0x4322 }) := by
    rw [h2]; simp [Card.issue, Card.cmd3, CardState.bits_for_card_status]
  have h3 : afterIssue (afterIssue (afterIssue c 0 a0) 2 a2) 3 a3 =
      { c with acmd := false, state := CardState.Stby, rca := some 0x4322 } := by
    rw [h2]
    simp [afterIssue, Card.issue, Card.cmd3, CardState.bits_for_card_status]
  refine ⟨by rw [h1], by rw [h2], by rw [h3], by rw [h3i, h3], by rw [h3], ?_⟩
  rw [h3]
  simp [Card.issue, Card.cmd7, upper16_of_concat x hx]

/-- Concrete instance of C9: the boot command sequence on a freshly reset
card ends with the card in the Trans state. -/
theorem sdhc_command_monotonicity_witness :
    (afterIssue (afterIssue (afterIssue
        (Card.mk CardState.Idle false 0 0 none 0 false 0 0 CardTXStatus.None) 0 0) 2 0) 3 0
      |>.issue { index := 7 } ((0x4322 <<< 16) ||| 0)).map (fun rc => rc.2.state) =
      some CardState.Trans :=
  (sdhc_command_monotonicity
    (Card.mk CardState.Idle false 0 0 none 0 false 0 0 CardTXStatus.None)
    rfl 0 0 0 0 (by decide)).2.2.2.2.2

/-! ## Claim C10 -/

/-- C10: a Thumb unconditional branch whose sign-extended, doubled offset is
-4 (a branch to its own address) does not branch: the handler reports a
fatal error (and the step turns it into a halt of emulation), while every
other offset branches to the execution PC plus the offset. -/
theorem thumb_b_self_branch_refused (cpu : Cpu) (op : Nat) :
    (2 * sign_extend (BranchAltBits.imm11 op) 11 = -4 →
      b_unconditional cpu op =
        (DispatchRes.FatalErr "Unconditional branch would loop forever", cpu)) ∧
    (2 * sign_extend (BranchAltBits.imm11 op) 11 ≠ -4 →
      b_unconditional cpu op = (DispatchRes.RetireBranch,
        cpu.write_exec_pc (ofI32 (toI32 cpu.read_exec_pc +
          2 * sign_extend (BranchAltBits.imm11 op) 11)))) ∧
    (∀ env : StepEnv, env.thumbExec = b_unconditional →
      cpu.cpsr_thumb = true → cpu.pc % 2 = 0 →
      (cpu.cpsr_irq_disable = true ∨ cpu.irq_input = false) →
      env.read16 cpu cpu.pc = .ok op →
      2 * sign_extend (BranchAltBits.imm11 op) 11 = -4 →
      cpu_step env cpu =
        some ⟨CpuRes.HaltEmulation "Unconditional branch would loop forever", cpu, [], false⟩) := by
  refine ⟨fun hoff => ?_, fun hoff => ?_, fun env henv ht hal hirq hfetch hoff => ?_⟩
  · unfold b_unconditional
    simp [hoff]
  · unfold b_unconditional
    simp [hoff]
  · have hirqb : (!cpu.cpsr_irq_disable && cpu.irq_input) = false := by
      rcases hirq with h | h <;> simp [h]
    simp [cpu_step, Cpu.read_fetch_pc, hal, hirqb, ht, henv, hfetch,
      b_unconditional, hoff, step_retire]

/-- Concrete instance of C10: the encoding `b .` (opcode 0xe7fe, offset -4)
is refused with a fatal error. -/
theorem thumb_b_self_branch_refused_witness :
    b_unconditional
        (Cpu.mk (fun _ => 0) 0x1000 0 true false true false false (P15.mk 0 0 0)) 0xe7fe =
      (DispatchRes.FatalErr "Unconditional branch would loop forever",
       Cpu.mk (fun _ => 0) 0x1000 0 true false true false false (P15.mk 0 0 0)) :=
  (thumb_b_self_branch_refused
    (Cpu.mk (fun _ => 0) 0x1000 0 true false true false false (P15.mk 0 0 0)) 0xe7fe).1
    (by decide)

/-! ## Claims about single CPU steps: shared lemmas -/

/-- A step that takes no IRQ and fetches a Thumb opcode retires through
`step_retire` on the dispatched handler's result. -/
theorem cpu_step_thumb_ok (env : StepEnv) (c0 : Cpu) (op : Nat)
    (hal : c0.pc % 2 = 0) (hirq : (!c0.cpsr_irq_disable && c0.irq_input) = false)
    (ht : c0.cpsr_thumb = true) (hf : env.read16 c0 c0.pc = .ok op) :
    cpu_step env c0 =
      some (step_retire env [] (env.thumbExec c0 op).1 (env.thumbExec c0 op).2) := by
  simp [cpu_step, Cpu.read_fetch_pc, hal, hirq, ht, hf]

/-- A step that takes no IRQ, fetches an ARM opcode and passes its condition
retires through `step_retire` on the dispatched handler's result. -/
theorem cpu_step_arm_ok (env : StepEnv) (c0 : Cpu) (op : Nat)
    (hal : c0.pc % 2 = 0) (hirq : (!c0.cpsr_irq_disable && c0.irq_input) = false)
    (ht : c0.cpsr_thumb = false) (hf : env.read32 c0 c0.pc = .ok op)
    (hc : env.condPass c0 op = .ok true) :
    cpu_step env c0 =
      some (step_retire env [] (env.armExec c0 op).1 (env.armExec c0 op).2) := by
  simp [cpu_step, Cpu.read_fetch_pc, hal, hirq, ht, hf, hc]

/-! ## Claim C2 -/

/-- Retirement does not generate an IRQ exception unless the handler's
dispatch result was `Exception Irq`. -/
theorem step_retire_gen_mem (env : StepEnv) (gen0 : List ExceptionType)
    (disp : DispatchRes) (c : Cpu)
    (hd : disp ≠ DispatchRes.Exception ExceptionType.Irq) :
    (ExceptionType.Irq ∈ (step_retire env gen0 disp c).gen ↔ ExceptionType.Irq ∈ gen0) := by
  unfold step_retire
  cases disp with
  | Exception e =>
    have he : ExceptionType.Irq ≠ e := fun h => hd (by rw [← h])
    by_cases hsw : e = ExceptionType.Swi
    · subst hsw
      simp only [reduceIte]
      split <;> split <;> simp [List.mem_append]
    · simp [hsw, List.mem_append, he]
  | RetireOk => simp
  | RetireBranch => simp
  | CondFailed => simp
  | Breakpoint => simp
  | FatalErr reason => simp

/-- C2: during a CPU step, an IRQ exception is generated exactly when the
CPSR IRQ-disable bit is clear and the sampled `irq_input` line is high at
the start of the step; with the IRQ-disable bit set no IRQ exception is
generated regardless of `irq_input`.  The dispatch tables are constrained
not to report `Exception(Irq)` themselves, which holds of every handler in
the interpreter (the only exception results are Swi and Undef). -/
theorem irq_generated_iff_unmasked_and_input (env : StepEnv) (c0 : Cpu) (out : StepOut)
    (hthumb : ∀ c op, (env.thumbExec c op).1 ≠ DispatchRes.Exception ExceptionType.Irq)
    (harm : ∀ c op, (env.armExec c op).1 ≠ DispatchRes.Exception ExceptionType.Irq)
    (hstep : cpu_step env c0 = some out) :
    (ExceptionType.Irq ∈ out.gen ↔
      (c0.cpsr_irq_disable = false ∧ c0.irq_input = true)) := by
  simp only [cpu_step, Cpu.read_fetch_pc] at hstep
  split at hstep
  · exact absurd hstep (by simp)
  set c1 := (if (!c0.cpsr_irq_disable && c0.irq_input) = true then
    c0.generate_exception ExceptionType.Irq else c0) with hc1
  set gen0 := (if (!c0.cpsr_irq_disable && c0.irq_input) = true then
    [ExceptionType.Irq] else ([] : List ExceptionType)) with hgen0
  have hmem0 : (ExceptionType.Irq ∈ gen0 ↔
      (c0.cpsr_irq_disable = false ∧ c0.irq_input = true)) := by
    rw [hgen0]
    cases hd : c0.cpsr_irq_disable <;> cases hi : c0.irq_input <;> simp
  rw [← hmem0]
  split at hstep
  · -- Thumb fetch
    split at hstep
    · cases hstep; exact Iff.rfl
    · rename_i opcd hf
      cases hstep
      exact step_retire_gen_mem env gen0 (env.thumbExec c1 opcd).1
        (env.thumbExec c1 opcd).2 (hthumb c1 opcd)
  · -- ARM fetch
    split at hstep
    · cases hstep; exact Iff.rfl
    · rename_i opcd hf
      split at hstep
      · cases hstep
        exact step_retire_gen_mem env gen0 (env.armExec c1 opcd).1
          (env.armExec c1 opcd).2 (harm c1 opcd)
      · cases hstep
        exact step_retire_gen_mem env gen0 DispatchRes.CondFailed c1 (by simp)
      · cases hstep
        exact step_retire_gen_mem env gen0 _ c1 (by simp)

/-- An environment whose handlers always retire without exceptions. -/
def stepEnvNop : StepEnv :=
  ⟨fun _ _ => .ok 0, fun _ _ => .ok 0, fun _ _ => .ok true,
   fun c _ => (DispatchRes.RetireOk, c), fun c _ => (DispatchRes.RetireOk, c)⟩

/-- Concrete instance of C2: with the IRQ-disable bit set and the IRQ line
high, the step generates no IRQ exception. -/
theorem irq_generated_iff_unmasked_and_input_witness :
    (ExceptionType.Irq ∈ (StepOut.mk CpuRes.StepOk
        (Cpu.mk (fun _ => 0) 2 0 true true true false true (P15.mk 0 0 0)) [] false).gen ↔
      ((Cpu.mk (fun _ => 0) 0 0 true true true false true (P15.mk 0 0 0)).cpsr_irq_disable
          = false ∧
       (Cpu.mk (fun _ => 0) 0 0 true true true false true (P15.mk 0 0 0)).irq_input = true)) :=
  irq_generated_iff_unmasked_and_input stepEnvNop
    (Cpu.mk (fun _ => 0) 0 0 true true true false true (P15.mk 0 0 0))
    (StepOut.mk CpuRes.StepOk
      (Cpu.mk (fun _ => 0) 2 0 true true true false true (P15.mk 0 0 0)) [] false)
    (fun _ _ => by simp [stepEnvNop]) (fun _ _ => by simp [stepEnvNop]) rfl

/-! ## Claim C5 -/

/-- C5 (amended): executing BKPT with a non-reserved immediate (below
0xfffb) records the immediate in the CPU scratch register, retires the step
with the PC advanced and sets the backend's debugger-attached flag, but the
step result returned to the main loop is the ordinary `StepOk` (the
`Breakpoint` dispatch result is not propagated: `CpuRes` has no breakpoint
variant). -/
theorem bkpt_nonreserved_records_and_retires (env : StepEnv) (c0 : Cpu) (op : Nat)
    (dump : Except String Unit)
    (harm : env.armExec = bkpt dump)
    (ht : c0.cpsr_thumb = false) (hal : c0.pc % 2 = 0)
    (hirq : (!c0.cpsr_irq_disable && c0.irq_input) = false)
    (hf : env.read32 c0 c0.pc = .ok op)
    (hc : env.condPass c0 op = .ok true)
    (himm : BkptBits.imm16 op % 2 ^ 16 < 0xfffb) :
    cpu_step env c0 = some ⟨CpuRes.StepOk,
      { c0 with scratch := BkptBits.imm16 op % 2 ^ 16, pc := (c0.pc + 4) % 2 ^ 32 },
      [], true⟩ := by
  rw [cpu_step_arm_ok env c0 op hal hirq ht hf hc, harm]
  unfold bkpt
  have h1 : ¬ (BkptBits.imm16 op % 2 ^ 16 = 0xffff) := by omega
  have h2 : ¬ (0xfffc ≤ BkptBits.imm16 op % 2 ^ 16 ∧ BkptBits.imm16 op % 2 ^ 16 ≤ 0xfffe) := by
    omega
  have h3 : ¬ (BkptBits.imm16 op % 2 ^ 16 = 0xfffb) := by omega
  simp only [h1, h2, h3, if_false, reduceIte]
  unfold step_retire Cpu.increment_pc
  simp [ht]

/-- The CPU state for the concrete BKPT scenario: ARM state, fetch PC
0x1000, IRQs masked. -/
def cpuBkptW : Cpu := Cpu.mk (fun _ => 0) 0x1000 0 false true true false false (P15.mk 0 0 0)

/-- The step environment for the concrete BKPT scenario: the fetch returns
the opcode of `BKPT #5`. -/
def envBkptW : StepEnv :=
  ⟨fun _ _ => .error "thumb fetch unused", fun _ _ => .ok 0xe1200075,
   fun _ _ => .ok true, fun c _ => (DispatchRes.RetireOk, c), bkpt (.ok ())⟩

/-- Counterexample to C5 as stated: executing `BKPT #5` does not surface any
distinguished breakpoint step result to the main loop; the step result is
the ordinary `StepOk` (the scratch register and the advanced PC notwith-
standing), and `CpuRes` has no breakpoint variant at all. -/
theorem bkpt_step_result_not_surfaced :
    (cpu_step envBkptW cpuBkptW).map
        (fun o => (o.res, o.cpu.scratch, o.cpu.pc, o.gen, o.dbgAttach)) =
      some (CpuRes.StepOk, 5, 0x1004, [], true) := by
  decide

/-- Concrete instance of the amended C5: `BKPT #5` at PC 0x1000. -/
theorem bkpt_nonreserved_records_and_retires_witness :
    cpu_step envBkptW cpuBkptW = some ⟨CpuRes.StepOk,
      { cpuBkptW with scratch := BkptBits.imm16 0xe1200075 % 2 ^ 16,
                      pc := (cpuBkptW.pc + 4) % 2 ^ 32 },
      [], true⟩ :=
  bkpt_nonreserved_records_and_retires envBkptW cpuBkptW 0xe1200075 (.ok ())
    rfl rfl rfl rfl rfl rfl (by decide)

/-! ## Claim C6 -/

/-- C6: an SVC step is returned to the main loop as `Semihosting`, with the
PC advanced past the instruction and no Swi exception generated, exactly
when the opcode is the semihosting escape — in Thumb state the halfword
0xdfab (`SVC #0xAB`), in ARM state an opcode whose low 24 bits (after
stripping the condition and opcode bits) are 0xAB; every other SVC
generates a Swi exception. -/
theorem svc_semihosting_escape (env : StepEnv) (c0 : Cpu)
    (hte : env.thumbExec = svc) (hae : env.armExec = svc_arm)
    (hal : c0.pc % 2 = 0)
    (hirq : (!c0.cpsr_irq_disable && c0.irq_input) = false) :
    (∀ opcd, c0.cpsr_thumb = true → env.read16 c0 c0.pc = .ok opcd →
      cpu_step env c0 =
        (if opcd = 0xdfab then some ⟨CpuRes.Semihosting, c0.increment_pc, [], false⟩
         else some ⟨CpuRes.StepException ExceptionType.Swi,
           c0.generate_exception ExceptionType.Swi, [ExceptionType.Swi], false⟩)) ∧
    (∀ opcd, c0.cpsr_thumb = false → env.read32 c0 c0.pc = .ok opcd →
      env.condPass c0 opcd = .ok true →
      cpu_step env c0 =
        (if opcd &&& 0x00ffffff = 0xab
         then some ⟨CpuRes.Semihosting, c0.increment_pc, [], false⟩
         else some ⟨CpuRes.StepException ExceptionType.Swi,
           c0.generate_exception ExceptionType.Swi, [ExceptionType.Swi], false⟩)) := by
  constructor
  · intro opcd ht hf
    rw [cpu_step_thumb_ok env c0 opcd hal hirq ht hf, hte]
    simp [svc, step_retire, ht, Cpu.read_fetch_pc, hf, Except.toOption, apply_ite]
  · intro opcd ht hf hc
    rw [cpu_step_arm_ok env c0 opcd hal hirq ht hf hc, hae]
    simp [svc_arm, step_retire, ht, Cpu.read_fetch_pc, hf, Except.toOption, apply_ite]

/-- The CPU state for the concrete semihosting scenario: Thumb state, IRQs
masked. -/
def cpuSvcW : Cpu := Cpu.mk (fun _ => 0) 0x100 0 true true true false false (P15.mk 0 0 0)

/-- The step environment for the concrete semihosting scenario: the Thumb
fetch returns `SVC #0xAB`. -/
def envSvcW : StepEnv :=
  ⟨fun _ _ => .ok 0xdfab, fun _ _ => .ok 0, fun _ _ => .ok true, svc, svc_arm⟩

/-- Concrete instance of C6: a Thumb `SVC #0xAB` surfaces `Semihosting` with
the PC advanced and no exception generated. -/
theorem svc_semihosting_escape_witness :
    cpu_step envSvcW cpuSvcW =
      some ⟨CpuRes.Semihosting, cpuSvcW.increment_pc, [], false⟩ := by
  have h := (svc_semihosting_escape envSvcW cpuSvcW rfl rfl rfl rfl).1 0xdfab rfl rfl
  simpa using h

/-! ## Claim C3 -/

/-- `sign_extend` on an in-range value, in closed form. -/
theorem sign_extend_of_lt (x bits : Nat) (hx : x < 2 ^ bits) (hbits : bits ≤ 31) :
    sign_extend x bits =
      if x.testBit (bits - 1) then (x : Int) - 2 ^ bits else (x : Int) := by
  have h31 : x < 2 ^ 31 :=
    lt_of_lt_of_le hx (Nat.pow_le_pow_right (by norm_num) hbits)
  have h32 : x < 2 ^ 32 := lt_of_lt_of_le h31 (by norm_num)
  unfold sign_extend toI32
  rw [Nat.mod_eq_of_lt h32, Nat.mod_eq_of_lt hx, if_pos h31]

/-- Bit 22 of the combined BL immediate is the sign bit of the prefix
immediate. -/
theorem testBit_or_shifts (p s : Nat) (hs : s < 2 ^ 11) :
    ((p <<< 12) ||| (s <<< 1)).testBit 22 = p.testBit 10 := by
  rw [Nat.testBit_lor, Nat.testBit_shiftLeft, Nat.testBit_shiftLeft]
  have h21 : s.testBit 21 = false := Nat.testBit_eq_false_of_lt (by omega)
  norm_num [h21]

/-- The two halves of the BL immediate occupy disjoint bit ranges, so their
bitwise or is a sum. -/
theorem or_shifts_eq_add (p s : Nat) (hs : s < 2 ^ 11) :
    (p <<< 12) ||| (s <<< 1) = 2 ^ 12 * p + 2 * s := by
  have h := Nat.mul_add_lt_is_or (i := 12) (show 2 * s < 2 ^ 12 by omega) p
  rw [Nat.shiftLeft_eq, Nat.shiftLeft_eq, Nat.mul_comm p, Nat.mul_comm s, pow_one, h]

/-- The split BL target computation agrees with sign-extending the combined
23-bit immediate. -/
theorem bl_target_arith (A p s : Nat) (hA : A < 2 ^ 32) (hp : p < 2 ^ 11)
    (hs : s < 2 ^ 11) :
    (ofI32 (toI32 ((A + 4) % 2 ^ 32) + sign_extend (p <<< 12) 23) + s <<< 1) % 2 ^ 32 =
      ofI32 ((A : Int) + 4 + sign_extend ((p <<< 12) ||| (s <<< 1)) 23) := by
  have hor := or_shifts_eq_add p s hs
  have hps : p <<< 12 = 2 ^ 12 * p := by rw [Nat.shiftLeft_eq, Nat.mul_comm]
  have hss : s <<< 1 = 2 * s := by rw [Nat.shiftLeft_eq, Nat.mul_comm, pow_one]
  have hb1 : (p <<< 12).testBit 22 = p.testBit 10 := by
    rw [Nat.testBit_shiftLeft]
    norm_num
  have hb2 := testBit_or_shifts p s hs
  rw [sign_extend_of_lt (p <<< 12) 23 (by rw [hps]; omega) (by omega),
      sign_extend_of_lt ((p <<< 12) ||| (s <<< 1)) 23 (by rw [hor]; omega) (by omega),
      hb1, hb2, hor, hps, hss]
  unfold ofI32 toI32
  cases hbit : p.testBit 10 <;> simp only [if_true, if_false, Bool.false_eq_true, reduceIte] <;>
    split_ifs <;> push_cast <;> omega

/-- C3: executing a BL prefix halfword with immediate `p` at address `A`,
immediately followed by the BL suffix halfword with immediate `s`, leaves
`LR = (A + 4) | 1` and sets the next fetch PC to
`(A + 4) + sign_extend(p <<< 12 | s <<< 1)` (all in 32-bit arithmetic); the
prefix stores its partial target in the CPU scratch field. -/
theorem thumb_bl_pair (cpu : Cpu) (op1 op2 p s A : Nat)
    (ht : cpu.cpsr_thumb = true) (hpc : cpu.pc = A) (hA : A < 2 ^ 32)
    (hp : p < 2 ^ 11) (hs : s < 2 ^ 11)
    (hop1 : BlBits.imm11 op1 = p) (hop2 : BlBits.imm11 op2 = s)
    (hh2 : BlBits.h op2 = 0x3) :
    ( bl_prefix cpu op1).1 = DispatchRes.RetireOk ∧
    ( bl_prefix cpu op1).2.scratch =
      ofI32 (toI32 ((A + 4) % 2 ^ 32) + sign_extend (p <<< 12) 23) ∧
    ∃ c2, bl_imm_suffix (( bl_prefix cpu op1).2.increment_pc) op2 =
        some (DispatchRes.RetireBranch, c2) ∧
      c2.reg 14 = ((A + 4) % 2 ^ 32) ||| 1 ∧
      c2.pc = ofI32 ((A : Int) + 4 + sign_extend ((p <<< 12) ||| (s <<< 1)) 23) := by
  have hsh : (BlBits.imm11 op1 <<< 12) = p <<< 12 := by rw [hop1]
  have hpre : bl_prefix cpu op1 = (DispatchRes.RetireOk,
      { cpu with scratch := ofI32 (toI32 ((A + 4) % 2 ^ 32) + sign_extend (p <<< 12) 23) }) := by
    unfold bl_prefix
    rw [hsh]
    simp [Cpu.read_exec_pc, hpc, ht]
  have hmid : ( bl_prefix cpu op1).2.increment_pc =
      { cpu with scratch := ofI32 (toI32 ((A + 4) % 2 ^ 32) + sign_extend (p <<< 12) 23),
                 pc := (A + 2) % 2 ^ 32 } := by
    rw [hpre]
    simp [Cpu.increment_pc, ht, hpc]
  refine ⟨by rw [hpre], by rw [hpre], ?_⟩
  rw [hmid]
  unfold bl_imm_suffix
  rw [hh2, hop2]
  simp only [ne_eq, not_true_eq_false, if_false, reduceIte, Option.some.injEq]
  refine ⟨_, rfl, ?_, ?_⟩
  · simp only [Cpu.write_exec_pc, Cpu.setReg, Cpu.read_fetch_pc]
    have : ((A + 2) % 2 ^ 32 + 2) % 2 ^ 32 = (A + 4) % 2 ^ 32 := by omega
    simp [this]
  · simp only [Cpu.write_exec_pc, Cpu.setReg]
    rw [show ∀ n : Nat, n % 2 ^ 32 % 2 ^ 32 = n % 2 ^ 32 from fun n => Nat.mod_mod_of_dvd n dvd_rfl]
    exact bl_target_arith A p s hA hp hs

/-- The CPU state for the concrete BL-pair scenario of the spec: Thumb
state, fetch PC 0x10000. -/
def cpuBlW : Cpu := Cpu.mk (fun _ => 0) 0x10000 0 true true true false false (P15.mk 0 0 0)

/-- Concrete instance of C3 (the spec's scenario 5): prefix 0xF000 and
suffix 0xF8FE at PC 0x10000 branch to 0x10200 with LR = 0x10005. -/
theorem thumb_bl_pair_witness :
    (bl_imm_suffix (( bl_prefix cpuBlW 0xF000).2.increment_pc) 0xF8FE).map
        (fun rc => (rc.1, rc.2.reg 14, rc.2.pc)) =
      some (DispatchRes.RetireBranch, 0x10005, 0x10200) := by
  obtain ⟨h0, hsc, c2, h1, h2, h3⟩ := thumb_bl_pair cpuBlW 0xF000 0xF8FE 0 0xFE 0x10000
    rfl rfl (by norm_num) (by norm_num) (by norm_num) (by decide) (by decide) (by decide)
  rw [h1]
  simp only [Option.map_some']
  rw [h2, h3]
  decide

/-! ## Claim C4 -/

/-- The store loop splits over an append of index lists. -/
theorem stmWrites_append (w : Nat → Nat → Except String Unit) (cpu : Cpu) (rl : Nat)
    (xs ys : List Nat) (a : Nat) :
    stmWrites w cpu rl (xs ++ ys) a =
      (match stmWrites w cpu rl xs a with
       | (tr, .error e) => (tr, .error e)
       | (tr, .ok a') =>
         match stmWrites w cpu rl ys a' with
         | (tr2, r2) => (tr ++ tr2, r2)) := by
  induction xs generalizing a with
  | nil => simp [stmWrites]
  | cons i rest ih =>
    rw [List.cons_append]
    simp only [stmWrites]
    by_cases hbit : rl &&& (1 <<< i) ≠ 0
    · simp only [if_pos hbit]
      cases hw : w a (if i = 15 then cpu.read_exec_pc else cpu.reg i) with
      | error e => simp [hw]
      | ok u =>
        simp only [hw]
        rcases hrest : stmWrites w cpu rl rest ((a + 4) % 2 ^ 32) with ⟨tr1, res1⟩
        rw [ih, hrest]
        cases res1 with
        | error e => simp
        | ok a1 =>
          rcases hys : stmWrites w cpu rl ys a1 with ⟨tr2, r2⟩
          simp [hys]
    · simp only [if_neg hbit]
      exact ih a

/-- If the register list contains R15 and the store loop over all sixteen
registers succeeds, its final write (the one performed for R15, the highest
index) stored the execution PC. -/
theorem stmWrites_r15_last (w : Nat → Nat → Except String Unit) (cpu : Cpu) (rl : Nat)
    (a : Nat) (tr : List (Nat × Nat)) (aEnd : Nat)
    (h15 : rl &&& (1 <<< 15) ≠ 0)
    (h : stmWrites w cpu rl (List.range 16) a = (tr, .ok aEnd)) :
    ∃ a15, tr.getLast? = some (a15, cpu.read_exec_pc) := by
  rw [show (16 : Nat) = 15 + 1 from rfl, List.range_succ, stmWrites_append] at h
  rcases hxs : stmWrites w cpu rl (List.range 15) a with ⟨tr1, res1⟩
  rw [hxs] at h
  cases res1 with
  | error e => simp at h
  | ok a1 =>
    simp only [stmWrites, reduceIte] at h
    rw [if_pos h15] at h
    cases hw : w a1 cpu.read_exec_pc with
    | error e =>
      rw [hw] at h
      simp at h
    | ok u =>
      rw [hw] at h
      simp only [Prod.mk.injEq] at h
      exact ⟨a1, by rw [← h.1]; exact List.getLast?_concat _⟩

/-- C4 (amended): for STM and STMDB with R15 in the register list, the value
stored for R15 is the fetch address of the instruction plus 8 (the ARM
execution PC), not plus 12.  The stored value is the last entry of the
write trace, R15 being the highest-numbered register of the ascending
transfer order. -/
theorem stm_stmdb_r15_stores_pc_plus_8 (w : Nat → Nat → Except String Unit)
    (cpu : Cpu) (op : Nat) (cpu' : Cpu) (tr : List (Nat × Nat))
    (hthumb : cpu.cpsr_thumb = false)
    (h15 : LsMultiBits.register_list op &&& (1 <<< 15) ≠ 0) :
    (stm w cpu op = some (DispatchRes.RetireOk, cpu', tr) →
      ∃ a, tr.getLast? = some (a, (cpu.pc + 8) % 2 ^ 32)) ∧
    (stmdb w cpu op = some (DispatchRes.RetireOk, cpu', tr) →
      ∃ a, tr.getLast? = some (a, (cpu.pc + 8) % 2 ^ 32)) := by
  have hexec : cpu.read_exec_pc = (cpu.pc + 8) % 2 ^ 32 := by
    simp [Cpu.read_exec_pc, hthumb]
  constructor
  · intro h
    simp only [stm] at h
    split at h
    · cases h
    rcases hws : stmWrites w cpu (LsMultiBits.register_list op) (List.range 16)
        (cpu.reg (LsMultiBits.rn op)) with ⟨tr0, res0⟩
    rw [hws] at h
    cases res0 with
    | error e => simp at h
    | ok aEnd =>
      split at h
      · rename_i e heq
        simp at heq
      · rename_i addrEnd heq
        simp only [Except.ok.injEq] at heq
        split at h
        · cases h
        · simp only [Option.some.injEq, Prod.mk.injEq] at h
          rw [← hexec, ← h.2.2]
          exact stmWrites_r15_last w cpu _ _ tr0 aEnd h15 hws
  · intro h
    simp only [stmdb] at h
    split at h
    · cases h
    rcases hws : stmWrites w cpu (LsMultiBits.register_list op) (List.range 16)
        ((cpu.reg (LsMultiBits.rn op) +
          (2 ^ 32 - count_ones (LsMultiBits.register_list op) * 4 % 2 ^ 32)) % 2 ^ 32)
      with ⟨tr0, res0⟩
    rw [hws] at h
    cases res0 with
    | error e => simp at h
    | ok aEnd =>
      split at h
      · rename_i e heq
        simp at heq
      · simp only [Option.some.injEq, Prod.mk.injEq] at h
        rw [← hexec, ← h.2.2]
        exact stmWrites_r15_last w cpu _ _ tr0 aEnd h15 hws

/-- The CPU state for the concrete STM scenario: ARM state, fetch PC 0x1000,
every register holding 0x100. -/
def cpuStmW : Cpu := Cpu.mk (fun _ => 0x100) 0x1000 0 false true true false false (P15.mk 0 0 0)

/-- Counterexample to C4 as stated: `stm r0, {r15}` fetched at 0x1000 stores
0x1008 (= PC + 8) for R15, not PC + 12 = 0x100c. -/
theorem stm_r15_not_pc_plus_12 :
    (stm (fun _ _ => .ok ()) cpuStmW 0xe8808000).map (fun rc => (rc.1, rc.2.2)) =
      some (DispatchRes.RetireOk, [(0x100, 0x1008)]) ∧
    (0x1008 : Nat) ≠ cpuStmW.pc + 12 := by
  constructor
  · decide
  · decide

/-- Concrete instance of the amended C4: the single write of
`stm r0, {r15}` at 0x1000 stores `(0x1000 + 8) % 2^32`. -/
theorem stm_stmdb_r15_stores_pc_plus_8_witness :
    ∃ a, [((0x100 : Nat), (0x1008 : Nat))].getLast? = some (a, (cpuStmW.pc + 8) % 2 ^ 32) :=
  (stm_stmdb_r15_stores_pc_plus_8 (fun _ _ => .ok ()) cpuStmW 0xe8808000 cpuStmW
      [(0x100, 0x1008)] rfl (by decide)).1 rfl

end Ironic
